import Mathlib

/-!
Verification of the RAG document question-answering pipeline
(`src/rag/pdf_processor.py`, `src/rag/rag_graph.py`, `src/rag/vector_store.py`)
against its natural-language specification.

Shallow embedding conventions:
* Python strings are Lean `String`s (lengths count code points, as Python's
  `len` does); `None`-able text is `Option String`.
* Python float arithmetic in the garbled-text heuristic is modelled by exact
  rational arithmetic (`Rat`); the comparisons involved (`ratio < 0.1` with
  ratio either `1.0` or a small-integer quotient) are not sensitive to
  floating-point rounding for any property proved here.
* Python's Unicode-aware `str.isalnum` is abstracted as a per-character
  oracle `alnum : Char → Bool`; where a proof needs the Python fact that an
  ASCII control character is never alphanumeric, that fact is an explicit
  hypothesis.
* Calls into external libraries that may raise are modelled with `Except
  Unit`, where `.error ()` stands for a raised exception.
-/

namespace RagSpec

/-- A character matched by the Python regex `[\x00-\x1F\x7F]`
(`pdf_processor.py` line 32). -/
def isCtrlChar (c : Char) : Bool :=
  c.toNat ≤ 0x1F || c.toNat == 0x7F

/-- The literal `0.1` of the source, as an exact rational. It is written
with explicit numerator and denominator (rather than as `1 / 10`, to which
it is equal — see `pointOne_eq`) so that the heuristic can be evaluated by
kernel reduction on concrete inputs. -/
def pointOne : Rat := ⟨1, 10, by decide, Nat.coprime_one_left 10⟩

/-- Embedding of `is_likely_garbled_pdf_text` (`pdf_processor.py` lines 23-35).
`alnum` stands for Python's `str.isalnum` on a single character.
`none` models a `None` argument (pdfplumber's `extract_text` may return
`None`); Python's `not text` is true exactly for `None` and the empty
string. -/
def is_likely_garbled_pdf_text (alnum : Char → Bool) : Option String → Bool
  | none => true
  | some text =>
    -- `if not text or len(text) < 100: return True`
    if text.length == 0 || text.length < 100 then true
    else
      let alpha_count := text.toList.countP alnum
      let non_alpha_count := text.toList.countP fun c => !(alnum c)
      -- `ratio = alpha_count / non_alpha_count if non_alpha_count else 1.0`
      let ratio : Rat := if non_alpha_count == 0 then 1
        else (alpha_count : Rat) / (non_alpha_count : Rat)
      if ratio < pointOne then true
      else
        let control_chars := text.toList.countP isCtrlChar
        if control_chars > 10 then true
        else false

end RagSpec

namespace RagSpec

theorem pointOne_eq : pointOne = 1 / 10 := by
  rw [pointOne, Rat.mk'_eq_divInt, Rat.divInt_eq_div]
  norm_num

/-- C3: the heuristic flags `None`, empty, and short text as garbled. -/
theorem garbled_of_short (alnum : Char → Bool) :
    is_likely_garbled_pdf_text alnum none = true ∧
    ∀ t : String, t.length < 100 →
      is_likely_garbled_pdf_text alnum (some t) = true := by
  refine ⟨rfl, fun t ht => ?_⟩
  simp [is_likely_garbled_pdf_text, ht]

theorem garbled_of_short_check :
    ("hi").length < 100 ∧
      is_likely_garbled_pdf_text Char.isAlphanum (some "hi") = true :=
  ⟨by decide, (garbled_of_short Char.isAlphanum).2 "hi" (by decide)⟩

/-- C5: more than 10 control characters force the garbled verdict, whatever
the length and alphanumeric ratio are. -/
theorem garbled_of_many_control_chars (alnum : Char → Bool) (t : String)
    (h : 10 < t.toList.countP isCtrlChar) :
    is_likely_garbled_pdf_text alnum (some t) = true := by
  simp only [is_likely_garbled_pdf_text]
  split_ifs <;> simp_all

theorem garbled_of_many_control_chars_check :
    10 < ("\x01\x01\x01\x01\x01\x01\x01\x01\x01\x01\x01").toList.countP
        isCtrlChar ∧
      is_likely_garbled_pdf_text Char.isAlphanum
        (some "\x01\x01\x01\x01\x01\x01\x01\x01\x01\x01\x01") = true :=
  ⟨by decide,
    garbled_of_many_control_chars Char.isAlphanum
      "\x01\x01\x01\x01\x01\x01\x01\x01\x01\x01\x01" (by decide)⟩

/-- C4: a text of length at least 100 whose characters are all alphanumeric
is never judged garbled: the ratio clause sees a zero denominator and
defaults to ratio 1.0, and (since a control character is never alphanumeric
in Python) the control-character clause cannot fire either. -/
theorem not_garbled_of_all_alnum (alnum : Char → Bool) (t : String)
    (hctrl : ∀ c ∈ t.toList, isCtrlChar c = true → alnum c = false)
    (hnon : t.toList.countP (fun c => !(alnum c)) = 0)
    (hlen : 100 ≤ t.length) :
    is_likely_garbled_pdf_text alnum (some t) = false := by
  have hne : ¬ (t.length == 0 || t.length < 100) = true := by
    simp only [Bool.or_eq_true, beq_iff_eq, decide_eq_true_eq]
    omega
  have hallal : ∀ c ∈ t.toList, alnum c = true := by
    intro c hc
    have := (List.countP_eq_zero.mp hnon) c hc
    simpa using this
  have hctrl0 : t.toList.countP isCtrlChar = 0 := by
    refine List.countP_eq_zero.mpr fun c hc hcc => ?_
    have h1 := hctrl c hc hcc
    have h2 := hallal c hc
    rw [h1] at h2
    exact Bool.false_ne_true h2
  simp only [is_likely_garbled_pdf_text, hnon, hctrl0]
  rw [if_neg hne]
  norm_num [pointOne_eq]

theorem not_garbled_of_all_alnum_check :
    (∀ c ∈ (String.mk (List.replicate 100 'a')).toList,
        isCtrlChar c = true → Char.isAlphanum c = false) ∧
    (String.mk (List.replicate 100 'a')).toList.countP
        (fun c => !(Char.isAlphanum c)) = 0 ∧
    100 ≤ (String.mk (List.replicate 100 'a')).length ∧
    is_likely_garbled_pdf_text Char.isAlphanum
      (some (String.mk (List.replicate 100 'a'))) = false :=
  ⟨by decide, by decide, by decide,
    not_garbled_of_all_alnum Char.isAlphanum _ (by decide) (by decide)
      (by decide)⟩

/-- The inputs the external extraction libraries supply for one PDF page:
`primary` is what PyMuPDF's `page.get_text()` returns, `plumber` is what the
pdfplumber pipeline (`pdfplumber.open`, `.pages[page_num]`,
`.extract_text()`) yields — it may raise (`.error ()`) or return `None`
(`.ok none`) — and `ocr` is what the OCR block (`page.get_pixmap`, PIL,
`pytesseract.image_to_string`) yields, which may also raise. -/
structure Page where
  primary : String
  plumber : Except Unit (Option String)
  ocr : Except Unit String

/-- Embedding of `extract_text_from_page` (`pdf_processor.py` lines 38-60).
The result is `.error ()` when an uncaught exception escapes the function:
only the OCR block is inside a `try`, so a pdfplumber exception
propagates. When OCR raises, the caught handler keeps pdfplumber's garbled
output (possibly `None`) as the last resort. -/
def extract_text_from_page (alnum : Char → Bool) (pg : Page) :
    Except Unit (Option String) :=
  let pdf_text := pg.primary
  if is_likely_garbled_pdf_text alnum (some pdf_text) then
    match pg.plumber with
    | .error e => .error e
    | .ok pdf_text2 =>
      if is_likely_garbled_pdf_text alnum pdf_text2 then
        match pg.ocr with
        | .ok ocr_text => .ok (some ocr_text)
        | .error _ => .ok pdf_text2
      else .ok pdf_text2
  else .ok (some pdf_text)

/-- C2: the extraction fallback chain. The primary output is returned when
it is not garbled (whatever the other extractors would do); exactly when it
is garbled, pdfplumber's output decides: returned if not garbled (whatever
OCR would do), otherwise OCR's output is returned when OCR succeeds, and
pdfplumber's garbled output is kept when OCR raises. -/
theorem extract_text_fallback_chain (alnum : Char → Bool) (prim : String) :
    (is_likely_garbled_pdf_text alnum (some prim) = false →
      ∀ pl oc, extract_text_from_page alnum ⟨prim, pl, oc⟩ = .ok (some prim)) ∧
    (is_likely_garbled_pdf_text alnum (some prim) = true →
      ∀ t2, is_likely_garbled_pdf_text alnum t2 = false →
        ∀ oc, extract_text_from_page alnum ⟨prim, .ok t2, oc⟩ = .ok t2) ∧
    (is_likely_garbled_pdf_text alnum (some prim) = true →
      ∀ t2, is_likely_garbled_pdf_text alnum t2 = true →
        ∀ t3, extract_text_from_page alnum ⟨prim, .ok t2, .ok t3⟩ =
          .ok (some t3)) ∧
    (is_likely_garbled_pdf_text alnum (some prim) = true →
      ∀ t2, is_likely_garbled_pdf_text alnum t2 = true →
        extract_text_from_page alnum ⟨prim, .ok t2, .error ()⟩ = .ok t2) := by
  constructor
  · intro h pl oc
    simp [extract_text_from_page, h]
  refine ⟨fun h t2 h2 oc => ?_, fun h t2 h2 t3 => ?_, fun h t2 h2 => ?_⟩ <;>
    simp [extract_text_from_page, h, h2]

theorem extract_text_fallback_chain_check :
    is_likely_garbled_pdf_text Char.isAlphanum (some "short") = true ∧
    is_likely_garbled_pdf_text Char.isAlphanum (some "") = true ∧
    extract_text_from_page Char.isAlphanum
      ⟨"short", .ok (some ""), .ok "ocr text"⟩ = .ok (some "ocr text") ∧
    extract_text_from_page Char.isAlphanum
      ⟨"short", .ok (some ""), .error ()⟩ = .ok (some "") := by
  refine ⟨by decide, by decide, ?_, ?_⟩
  · exact (extract_text_fallback_chain Char.isAlphanum "short").2.2.1
      (by decide) (some "") (by decide) "ocr text"
  · exact (extract_text_fallback_chain Char.isAlphanum "short").2.2.2
      (by decide) (some "") (by decide)

/-- A langchain `Document` as built in `load_pdf_documents`
(`pdf_processor.py` lines 121-127): chunk text plus the metadata dict
`{"page": page_num + 1, "source": file_path.split("/")[-1]}`. -/
structure Document where
  page_content : String
  page : Nat
  source : String
deriving DecidableEq

/-- Python's `file_path.split("/")` on the character list: the components
between slashes, in order; splitting the empty string gives `[[]]`, and
consecutive slashes give empty components, exactly as in Python. -/
def splitOnSlash : List Char → List (List Char)
  | [] => [[]]
  | c :: rest =>
    let r := splitOnSlash rest
    if c == '/' then [] :: r
    else (c :: r.headD []) :: r.tail

/-- `file_path.split("/")[-1]`: the final component of the path. Python's
`str.split` always returns a non-empty list, so `[-1]` is its last
element (the default of `getLastD` is never reached). -/
def basename (p : String) : String :=
  String.mk ((splitOnSlash p.toList).getLastD [])

/-- One PDF file as the external libraries present it to
`load_pdf_documents`: its path and the outcome of `fitz.open` — either a
raised exception (an unreadable or corrupt PDF) or the sequence of pages. -/
structure PdfFile where
  path : String
  opened : Except Unit (List Page)

/-- The per-page body of the `for page in pdf_doc` loop of
`load_pdf_documents` (`pdf_processor.py` lines 116-128), for pages starting
at 0-based index `idx`. `split` stands for
`RecursiveCharacterTextSplitter.split_text` (external library). Each page's
chunks are appended to the accumulated list as the loop runs; when
`extract_text_from_page` raises, or when it hands `None` to `split_text`
(which raises a `TypeError`), the exception aborts the rest of this file's
pages — the surrounding `try` keeps what was accumulated so far. -/
def process_pages (alnum : Char → Bool) (split : String → List String)
    (path : String) : List Page → Nat → List Document
  | [], _ => []
  | pg :: rest, idx =>
    match extract_text_from_page alnum pg with
    | .error _ => []
    | .ok none => []
    | .ok (some pdf_text) =>
      ((split pdf_text).map fun chunk =>
        ⟨chunk, idx + 1, basename path⟩) ++
      process_pages alnum split path rest (idx + 1)

/-- Embedding of the file-processing loop of `load_pdf_documents`
(`pdf_processor.py` lines 110-135), over the validated list of file paths.
Each file's body runs under `try`: a file whose `fitz.open` raises
contributes nothing, a file aborted mid-pages contributes its pages
processed before the failure, and in either case the loop `continue`s with
the next file. -/
def load_pdf_documents (alnum : Char → Bool) (split : String → List String) :
    List PdfFile → List Document
  | [] => []
  | f :: rest =>
    (match f.opened with
     | .error _ => []
     | .ok pages => process_pages alnum split f.path pages 0) ++
    load_pdf_documents alnum split rest

/-- C6: a file whose open raises is caught, logged and skipped; every other
file is processed exactly as if the bad file were absent, and documents
accumulated from earlier files are retained. -/
theorem bad_file_is_skipped (alnum : Char → Bool)
    (split : String → List String) (f : PdfFile) (hf : f.opened = .error ())
    (xs ys : List PdfFile) :
    load_pdf_documents alnum split (xs ++ f :: ys) =
      load_pdf_documents alnum split xs ++ load_pdf_documents alnum split ys := by
  induction xs with
  | nil => simp [load_pdf_documents, hf]
  | cons x xs ih => simp [load_pdf_documents, ih, List.append_assoc]

theorem bad_file_is_skipped_check :
    (PdfFile.mk "bad.pdf" (.error ())).opened = .error () ∧
    load_pdf_documents Char.isAlphanum (fun t => [t])
      ([⟨"a/good.pdf", .ok [⟨"short", .ok (some "page text"), .error ()⟩]⟩] ++
        ⟨"bad.pdf", .error ()⟩ ::
        [⟨"b/good2.pdf", .ok [⟨"tiny", .error (), .ok "x"⟩]⟩]) =
      load_pdf_documents Char.isAlphanum (fun t => [t])
        [⟨"a/good.pdf", .ok [⟨"short", .ok (some "page text"), .error ()⟩]⟩] ++
      load_pdf_documents Char.isAlphanum (fun t => [t])
        [⟨"b/good2.pdf", .ok [⟨"tiny", .error (), .ok "x"⟩]⟩] :=
  ⟨rfl,
    bad_file_is_skipped Char.isAlphanum (fun t => [t])
      ⟨"bad.pdf", .error ()⟩ rfl
      [⟨"a/good.pdf", .ok [⟨"short", .ok (some "page text"), .error ()⟩]⟩]
      [⟨"b/good2.pdf", .ok [⟨"tiny", .error (), .ok "x"⟩]⟩]⟩

/-- If a page's extraction raises, the pages after it in the same file
contribute nothing: the loop over that file's pages is cut short and only
the earlier pages' documents remain. -/
theorem process_pages_cut_at_error (alnum : Char → Bool)
    (split : String → List String) (path : String) (pg : Page)
    (he : extract_text_from_page alnum pg = .error ()) :
    ∀ (ps₁ ps₂ : List Page) (idx : Nat),
      process_pages alnum split path (ps₁ ++ pg :: ps₂) idx =
        process_pages alnum split path ps₁ idx := by
  intro ps₁
  induction ps₁ with
  | nil =>
    intro ps₂ idx
    simp [process_pages, he]
  | cons p ps ih =>
    intro ps₂ idx
    simp only [List.cons_append, process_pages]
    cases extract_text_from_page alnum p with
    | error e => rfl
    | ok r =>
      cases r with
      | none => rfl
      | some t => simp [ih]

/-- C10: only the OCR step is guarded per page. When a page's primary
output is garbled and the pdfplumber call itself raises, the exception
escapes `extract_text_from_page`; in the file loop the file is abandoned at
that page — documents from the file's earlier pages are kept — and
processing continues with the remaining files. -/
theorem plumber_failure_aborts_file (alnum : Char → Bool)
    (split : String → List String) (pg : Page)
    (hg : is_likely_garbled_pdf_text alnum (some pg.primary) = true)
    (hp : pg.plumber = .error ()) :
    extract_text_from_page alnum pg = .error () ∧
    ∀ (path : String) (ps₁ ps₂ : List Page) (xs ys : List PdfFile),
      load_pdf_documents alnum split
          (xs ++ ⟨path, .ok (ps₁ ++ pg :: ps₂)⟩ :: ys) =
        load_pdf_documents alnum split xs ++
          process_pages alnum split path ps₁ 0 ++
          load_pdf_documents alnum split ys := by
  have he : extract_text_from_page alnum pg = .error () := by
    simp [extract_text_from_page, hg, hp]
  refine ⟨he, fun path ps₁ ps₂ xs ys => ?_⟩
  induction xs with
  | nil =>
    simp [load_pdf_documents, process_pages_cut_at_error alnum split path pg he]
  | cons x xs ih =>
    simp [load_pdf_documents, ih, List.append_assoc]

theorem plumber_failure_aborts_file_check :
    is_likely_garbled_pdf_text Char.isAlphanum (some "bad page") = true ∧
    (Page.mk "bad page" (.error ()) (.ok "unused")).plumber = .error () ∧
    load_pdf_documents Char.isAlphanum (fun t => [t])
        ([⟨"x.pdf", .ok []⟩] ++
          ⟨"dir/mid.pdf",
            .ok ([⟨"p0", .ok (some "t0"), .ok "o0"⟩] ++
              ⟨"bad page", .error (), .ok "unused"⟩ ::
              [⟨"p2", .ok (some "t2"), .ok "o2"⟩])⟩ ::
          [⟨"y.pdf", .ok [⟨"q", .ok (some "qt"), .ok "qo"⟩]⟩]) =
      load_pdf_documents Char.isAlphanum (fun t => [t]) [⟨"x.pdf", .ok []⟩] ++
        process_pages Char.isAlphanum (fun t => [t]) "dir/mid.pdf"
          [⟨"p0", .ok (some "t0"), .ok "o0"⟩] 0 ++
        load_pdf_documents Char.isAlphanum (fun t => [t])
          [⟨"y.pdf", .ok [⟨"q", .ok (some "qt"), .ok "qo"⟩]⟩] :=
  ⟨by decide, rfl,
    (plumber_failure_aborts_file Char.isAlphanum (fun t => [t])
        ⟨"bad page", .error (), .ok "unused"⟩ (by decide) rfl).2
      "dir/mid.pdf" [⟨"p0", .ok (some "t0"), .ok "o0"⟩]
      [⟨"p2", .ok (some "t2"), .ok "o2"⟩] [⟨"x.pdf", .ok []⟩]
      [⟨"y.pdf", .ok [⟨"q", .ok (some "qt"), .ok "qo"⟩]⟩]⟩

/-- Every document produced by the page loop comes from some page of the
file, is a chunk of that page's extracted text, and carries the 0-based
page index plus one together with the file's basename. -/
theorem mem_process_pages (alnum : Char → Bool) (split : String → List String)
    (path : String) :
    ∀ (pages : List Page) (idx : Nat) (d : Document),
      d ∈ process_pages alnum split path pages idx →
      ∃ (i : Nat) (pg : Page), pages[i]? = some pg ∧
        ∃ t, extract_text_from_page alnum pg = .ok (some t) ∧
          d.page_content ∈ split t ∧ d.page = idx + i + 1 ∧
          d.source = basename path := by
  intro pages
  induction pages with
  | nil => intro idx d hd; simp [process_pages] at hd
  | cons pg rest ih =>
    intro idx d hd
    simp only [process_pages] at hd
    revert hd
    cases he : extract_text_from_page alnum pg with
    | error e => intro hd; simp at hd
    | ok r =>
      cases r with
      | none => intro hd; simp at hd
      | some t =>
        intro hd
        rcases List.mem_append.mp hd with hmap | hrest
        · rcases List.mem_map.mp hmap with ⟨chunk, hchunk, hdc⟩
          exact ⟨0, pg, by simp, t, he, by rw [← hdc]; exact hchunk,
            by rw [← hdc], by rw [← hdc]⟩
        · obtain ⟨i, pg', hi, t', he', hc', hp', hs'⟩ := ih (idx + 1) d hrest
          exact ⟨i + 1, pg', by simpa using hi, t', he', hc', by omega, hs'⟩

/-- C7: every document that ingestion returns originates from some file in
the list and some 0-based page index `i` of that file, its content is one
of the chunks the splitter produced from that page's extracted text, its
`page` metadata is `i + 1`, and its `source` metadata is the file path's
final component. -/
theorem document_metadata_correct (alnum : Char → Bool)
    (split : String → List String) :
    ∀ (files : List PdfFile) (d : Document),
      d ∈ load_pdf_documents alnum split files →
      ∃ f ∈ files, ∃ pages, f.opened = .ok pages ∧
        ∃ (i : Nat) (pg : Page), pages[i]? = some pg ∧
          ∃ t, extract_text_from_page alnum pg = .ok (some t) ∧
            d.page_content ∈ split t ∧ d.page = i + 1 ∧
            d.source = basename f.path := by
  intro files
  induction files with
  | nil => intro d hd; simp [load_pdf_documents] at hd
  | cons f rest ih =>
    intro d hd
    simp only [load_pdf_documents] at hd
    rcases List.mem_append.mp hd with hf | hrest
    · revert hf
      cases ho : f.opened with
      | error e => intro hf; simp at hf
      | ok pages =>
        intro hf
        obtain ⟨i, pg, hi, t, he, hc, hp, hs⟩ :=
          mem_process_pages alnum split f.path pages 0 d hf
        exact ⟨f, List.mem_cons_self f rest, pages, ho, i, pg, hi, t, he, hc,
          by omega, hs⟩
    · obtain ⟨f', hf', rest'⟩ := ih d hrest
      exact ⟨f', List.mem_cons_of_mem f hf', rest'⟩

theorem document_metadata_correct_check :
    (Document.mk (String.mk (List.replicate 101 'a')) 1 "doc.pdf") ∈
      load_pdf_documents Char.isAlphanum (fun t => [t])
        [⟨"dir/doc.pdf",
          .ok [⟨String.mk (List.replicate 101 'a'), .ok none, .error ()⟩]⟩] ∧
    (∃ f ∈ [PdfFile.mk "dir/doc.pdf"
          (.ok [⟨String.mk (List.replicate 101 'a'), .ok none, .error ()⟩])],
      ∃ pages, f.opened = .ok pages ∧
        ∃ (i : Nat) (pg : Page), pages[i]? = some pg ∧
          ∃ t, extract_text_from_page Char.isAlphanum pg = .ok (some t) ∧
            (Document.mk (String.mk (List.replicate 101 'a')) 1
                "doc.pdf").page_content ∈ [t] ∧
            (Document.mk (String.mk (List.replicate 101 'a')) 1
                "doc.pdf").page = i + 1 ∧
            (Document.mk (String.mk (List.replicate 101 'a')) 1
                "doc.pdf").source = basename f.path) := by
  have hmem : (Document.mk (String.mk (List.replicate 101 'a')) 1 "doc.pdf") ∈
      load_pdf_documents Char.isAlphanum (fun t => [t])
        [⟨"dir/doc.pdf",
          .ok [⟨String.mk (List.replicate 101 'a'), .ok none, .error ()⟩]⟩] := by
    decide
  exact ⟨hmem,
    document_metadata_correct Char.isAlphanum (fun t => [t]) _ _ hmem⟩

/-- A conversation message (`langchain_core.messages`), reduced to its role
and content: the only parts the pipeline inspects. -/
inductive Message where
  | human (content : String)
  | ai (content : String)
  | system (content : String)
deriving DecidableEq

/-- The `RagState` TypedDict (`rag_graph.py` lines 22-29). The `messages`
field is annotated with `add_messages`; the other fields are plain
channels. Absent keys are modelled as their empty defaults. -/
structure RagState where
  messages : List Message
  original_query : String
  rewritten_query : String
  retrieved_docs : List Document
  context : String
  output : String
deriving DecidableEq

/-- The partial state dict a LangGraph node returns: `none` models a key
the node's returned dict does not contain. -/
structure RagUpdate where
  messages : Option (List Message)
  original_query : Option String
  rewritten_query : Option String
  retrieved_docs : Option (List Document)
  context : Option String
  output : Option String
deriving DecidableEq

/-- Modelled from the spec: how LangGraph (an external library) merges a
node's returned partial dict into the state. The `messages` channel is
annotated with `add_messages`, which appends the returned messages (new
messages carry fresh ids, so no upsert-by-id applies); every other channel
is overwritten when the returned dict contains the key and kept unchanged
otherwise. -/
def applyUpdate (s : RagState) (u : RagUpdate) : RagState where
  messages := s.messages ++ u.messages.getD []
  original_query := u.original_query.getD s.original_query
  rewritten_query := u.rewritten_query.getD s.rewritten_query
  retrieved_docs := u.retrieved_docs.getD s.retrieved_docs
  context := u.context.getD s.context
  output := u.output.getD s.output

/-- `format_docs` (`rag_graph.py` lines 39-41):
`"\n\n".join(doc.page_content for doc in docs)`. -/
def format_docs (docs : List Document) : String :=
  String.intercalate "\n\n" (docs.map Document.page_content)

/-- The `for msg in reversed(state["messages"])` search for the most recent
`HumanMessage`, returning its content (`rag_graph.py` lines 98-102):
`none` when the history holds no human message, in which case the loop
leaves the query unchanged. -/
def lastHumanContent (ms : List Message) : Option String :=
  ms.reverse.findSome? fun m =>
    match m with
    | .human c => some c
    | _ => none

/-- The query selection of `retrieve_docs_node` (`rag_graph.py` lines
95-102): `state.get("rewritten_query") or state.get("original_query", "")`
(Python `or` picks the first non-empty string), then, if that is still
empty, the content of the most recent human message. -/
def retrieve_query (s : RagState) : String :=
  let query := if s.rewritten_query == "" then s.original_query
    else s.rewritten_query
  if query == "" then
    match lastHumanContent s.messages with
    | some c => c
    | none => query
  else query

/-- Embedding of `retrieve_docs_node` (`rag_graph.py` lines 90-116).
`retriever` stands for `ensemble_retriever.invoke`. The node returns the
partial dict `{"retrieved_docs": ..., "context": ...}`. -/
def retrieve_docs_node (retriever : String → List Document) (s : RagState) :
    RagUpdate :=
  let query := retrieve_query s
  let retrieved_docs := retriever query
  let context := format_docs retrieved_docs
  ⟨none, none, none, some retrieved_docs, some context, none⟩

/-- Embedding of `agent_node` (`rag_graph.py` lines 119-156). `llm` stands
for the prompt-template/model/parser chain invoked with the context and the
message history; the node returns the partial dict
`{"messages": [AIMessage(content=response)], "output": response}`. -/
def agent_node (llm : String → List Message → String) (s : RagState) :
    RagUpdate :=
  let context := s.context
  let response := llm context s.messages
  ⟨some [Message.ai response], none, none, none, none, some response⟩

/-- C8: one turn of the answer-generation stage appends exactly one new AI
message, whose content is the generated answer, to the conversation; the
`output` field is set to the same answer text; and `original_query`,
`rewritten_query`, `retrieved_docs` and `context` are untouched. -/
theorem agent_node_appends_answer (llm : String → List Message → String)
    (s : RagState) :
    (applyUpdate s (agent_node llm s)).output = llm s.context s.messages ∧
    (applyUpdate s (agent_node llm s)).messages =
      s.messages ++ [Message.ai ((applyUpdate s (agent_node llm s)).output)] ∧
    (applyUpdate s (agent_node llm s)).original_query = s.original_query ∧
    (applyUpdate s (agent_node llm s)).rewritten_query = s.rewritten_query ∧
    (applyUpdate s (agent_node llm s)).retrieved_docs = s.retrieved_docs ∧
    (applyUpdate s (agent_node llm s)).context = s.context :=
  ⟨rfl, rfl, rfl, rfl, rfl, rfl⟩

/-- The reversed-history search finds the content of the most recent human
message: any messages after it contribute nothing. -/
theorem lastHumanContent_most_recent (ms₁ ms₂ : List Message) (c : String)
    (h : ∀ c', Message.human c' ∉ ms₂) :
    lastHumanContent (ms₁ ++ Message.human c :: ms₂) = some c := by
  unfold lastHumanContent
  rw [List.reverse_append, List.reverse_cons, List.append_assoc]
  rw [List.findSome?_append]
  have h₂ : (ms₂.reverse.findSome? fun m =>
      match m with | Message.human c' => some c' | _ => none) = none := by
    rw [List.findSome?_eq_none_iff]
    intro m hm
    cases m with
    | human c' => exact absurd (List.mem_reverse.mp hm) (h c')
    | ai c' => rfl
    | system c' => rfl
  rw [h₂]
  rfl

/-- C9: the retrieval stage queries the retriever with the fallback chain:
the rewritten query when non-empty, else the original query when non-empty,
else the content of the most recent human message of the history. -/
theorem retrieval_query_fallback (retriever : String → List Document)
    (s : RagState) :
    (retrieve_docs_node retriever s).retrieved_docs =
      some (retriever (retrieve_query s)) ∧
    (retrieve_docs_node retriever s).context =
      some (format_docs (retriever (retrieve_query s))) ∧
    (s.rewritten_query ≠ "" → retrieve_query s = s.rewritten_query) ∧
    (s.rewritten_query = "" → s.original_query ≠ "" →
      retrieve_query s = s.original_query) ∧
    (s.rewritten_query = "" → s.original_query = "" →
      ∀ ms₁ c ms₂, s.messages = ms₁ ++ Message.human c :: ms₂ →
        (∀ c', Message.human c' ∉ ms₂) → retrieve_query s = c) := by
  refine ⟨rfl, rfl, fun h1 => ?_, fun h1 h2 => ?_, fun h1 h2 ms₁ c ms₂ hm hh => ?_⟩
  · simp [retrieve_query, h1]
  · simp [retrieve_query, h1, h2]
  · simp [retrieve_query, h1, h2, hm, lastHumanContent_most_recent ms₁ ms₂ c hh]

theorem retrieval_query_fallback_check :
    retrieve_query
      ⟨[Message.human "q1", Message.ai "a1", Message.human "q2"],
        "", "", [], "", ""⟩ = "q2" :=
  (retrieval_query_fallback (fun _ => [])
      ⟨[Message.human "q1", Message.ai "a1", Message.human "q2"],
        "", "", [], "", ""⟩).2.2.2.2
    rfl rfl [Message.human "q1", Message.ai "a1"] "q2" [] rfl
    (by intro c'; simp)

/-- Insert a document into an already sorted list, keeping descending
score order; earlier-seen documents win ties. -/
def insertByScore (score : Document → Rat) (d : Document) :
    List Document → List Document
  | [] => [d]
  | e :: es => if score e < score d then d :: e :: es
    else e :: insertByScore score d es

/-- Stable sort by descending score. -/
def sortByScoreDesc (score : Document → Rat) : List Document → List Document
  | [] => []
  | d :: ds => insertByScore score d (sortByScoreDesc score ds)

/-- Modelled from the spec: the semantic sub-retriever
(`db.as_retriever(search_type='similarity', search_kwargs={'k':
RETRIEVAL_K})`, `vector_store.py` lines 71-74) is the spec's black-box
similarity index: for an abstract query/passage scoring function it
returns the indexed passages in descending score order truncated to the
top `k`. -/
def similarity_retrieve (score : String → Document → Rat) (k : Nat)
    (index : List Document) (q : String) : List Document :=
  (sortByScoreDesc (score q) index).take k

/-- Modelled from the spec: the lexical BM25 sub-retriever
(`BM25Retriever.from_documents(documents)` with `k = RETRIEVAL_K`,
`vector_store.py` lines 77-85), likewise a black-box top-`k`
term-frequency search over the same passages. -/
def bm25_retrieve (score : String → Document → Rat) (k : Nat)
    (corpus : List Document) (q : String) : List Document :=
  (sortByScoreDesc (score q) corpus).take k

/-- A passage's reciprocal-rank contribution from one ranked list: weight
over (rank + 60) when the passage occurs in the list, 0 otherwise. -/
def rrfScore (w : Rat) (l : List Document) (d : Document) : Rat :=
  match l.indexOf? d with
  | some r => w / ((r : Rat) + 60)
  | none => 0

/-- Modelled from the spec: `EnsembleRetriever(retrievers=[...],
weights=[0.5, 0.5])` (external library, `vector_store.py` lines 89-92)
merges the two ranked result lists by weighted reciprocal rank fusion:
duplicates are combined, not concatenated — each distinct passage gets the
sum of its contributions and the deduplicated passages are ranked by that
combined score. -/
def ensemble_retrieve (w₁ w₂ : Rat) (r₁ r₂ : String → List Document)
    (q : String) : List Document :=
  let l₁ := r₁ q
  let l₂ := r₂ q
  sortByScoreDesc (fun d => rrfScore w₁ l₁ d + rrfScore w₂ l₂ d)
    (l₁ ++ l₂).dedup

/-- The retriever wiring of `setup_vector_store` (`vector_store.py` lines
20-94): a semantic retriever and a BM25 retriever, both over the ingested
documents with the same depth `k`, combined with equal weights 0.5/0.5. -/
def setup_vector_store (semScore bmScore : String → Document → Rat)
    (k : Nat) (documents : List Document) : String → List Document :=
  ensemble_retrieve (1/2) (1/2)
    (similarity_retrieve semScore k documents)
    (bm25_retrieve bmScore k documents)

/-- C1: querying an empty index is not an error: the semantic sub-retriever
and the BM25 sub-retriever each return no passages, the ensemble result is
the empty sequence, and the retrieval node completes the turn with an empty
document list and empty context (the functions are total, so no exception
is raised). -/
theorem empty_index_retrieval_is_empty
    (semScore bmScore : String → Document → Rat) (k : Nat) (q : String)
    (s : RagState) :
    similarity_retrieve semScore k [] q = [] ∧
    bm25_retrieve bmScore k [] q = [] ∧
    setup_vector_store semScore bmScore k [] q = [] ∧
    (retrieve_docs_node (setup_vector_store semScore bmScore k [])
        s).retrieved_docs = some [] ∧
    (retrieve_docs_node (setup_vector_store semScore bmScore k [])
        s).context = some "" := by
  refine ⟨by simp [similarity_retrieve, sortByScoreDesc],
    by simp [bm25_retrieve, sortByScoreDesc], ?_, ?_, ?_⟩ <;>
    simp [setup_vector_store, ensemble_retrieve, similarity_retrieve,
      bm25_retrieve, sortByScoreDesc, retrieve_docs_node, format_docs,
      String.intercalate]

end RagSpec
